import Mathlib

/-!
Verification of `google/cloud/aiplatform/pipeline_jobs.py`.

The file embeds, as executable Lean definitions, the client-side logic of the
pipeline-job module: JSON-dictionary manipulation used by the caching toggle,
job-identity derivation and validation, pipeline-root resolution, the blocking
wait loop under a simulated clock, the clone operation, and the
lineage-context lookup.  Theorems about these definitions settle the frozen
claims about the module.
-/

/-- JSON values, the shape of the parsed pipeline templates and request
payloads the module manipulates.  Objects are insertion-ordered association
lists, mirroring Python dictionaries. -/
inductive Json where
  | null : Json
  | bool (b : Bool) : Json
  | num (n : Int) : Json
  | str (s : String) : Json
  | arr (elems : List Json) : Json
  | obj (fields : List (String × Json)) : Json
deriving Repr, Inhabited

/-- Lookup of a key in a Python dictionary (first matching entry). -/
def dictGet (fs : List (String × Json)) (key : String) : Option Json :=
  match fs with
  | [] => none
  | p :: rest => if p.1 = key then some p.2 else dictGet rest key

/-- Assignment `d[key] = v` on a Python dictionary: replaces the value in
place when the key is present, appends the pair otherwise. -/
def dictSet (fs : List (String × Json)) (key : String) (v : Json) : List (String × Json) :=
  match fs with
  | [] => [(key, v)]
  | p :: rest => if p.1 = key then (key, v) :: rest else p :: dictSet rest key v

/-- Deletion `del d[key]` on a Python dictionary. -/
def dictDelete (fs : List (String × Json)) (key : String) : List (String × Json) :=
  match fs with
  | [] => []
  | p :: rest => if p.1 = key then rest else p :: dictDelete rest key

/-- Lookup through a JSON value: `j[key]` when `j` is an object. -/
def jget (j : Json) (key : String) : Option Json :=
  match j with
  | .obj fs => dictGet fs key
  | _ => none

/-- String-typed lookup through a JSON value. -/
def jgetStr (j : Json) (key : String) : Option String :=
  match jget j key with
  | some (.str s) => some s
  | _ => none

/-- Key deletion through a JSON value; non-objects are returned unchanged. -/
def jdeleteKey (j : Json) (key : String) : Json :=
  match j with
  | .obj fs => .obj (dictDelete fs key)
  | _ => j

/-- Applies a fallible function to every value of an association list,
keeping the keys, failing when any single application fails. -/
def mapValuesM (f : Json → Option Json) : List (String × Json) → Option (List (String × Json))
  | [] => some []
  | p :: rest =>
    match f p.2, mapValuesM f rest with
    | some v', some rest' => some ((p.1, v') :: rest')
    | _, _ => none

/-! ### Pipeline states -/

/-- Remote pipeline states, mirroring the `PipelineState` proto enum that the
source reads through `gca_pipeline_state`. -/
inductive PipelineState where
  | unspecified
  | queued
  | pending
  | running
  | succeeded
  | failed
  | cancelling
  | cancelled
  | paused
deriving Repr, DecidableEq

/-- The terminal states checked by the wait loop (lines 45-52). -/
def _PIPELINE_COMPLETE_STATES : List PipelineState :=
  [.succeeded, .failed, .cancelled, .paused]

/-- The error-terminal states (line 54). -/
def _PIPELINE_ERROR_STATES : List PipelineState := [.failed]

/-! ### Caching toggle -/

/-- One task update inside `_set_enable_caching_value`: the assignment of a
fresh caching-options object carrying the flag. -/
def setTaskCaching (enable_caching : Bool) (task : Json) : Option Json :=
  match task with
  | .obj fs =>
    some (.obj (dictSet fs "cachingOptions" (.obj [("enableCache", .bool enable_caching)])))
  | _ => none

/-- The inner loop of `_set_enable_caching_value` over the dag of one
component: every task of the `tasks` dictionary is rewritten. -/
def setDagTasksCaching (b : Bool) (dag : Json) : Option Json :=
  match dag with
  | .obj dfs =>
    match dictGet dfs "tasks" with
    | some (.obj tfs) =>
      match mapValuesM (setTaskCaching b) tfs with
      | some tfs' => some (.obj (dictSet dfs "tasks" (.obj tfs')))
      | none => none
    | _ => none
  | _ => none

/-- `_set_enable_caching_value` on one component: a component without a `dag`
key is left unchanged. -/
def setComponentCaching (b : Bool) (component : Json) : Option Json :=
  match component with
  | .obj cfs =>
    match dictGet cfs "dag" with
    | none => some (.obj cfs)
    | some dag =>
      match setDagTasksCaching b dag with
      | some dag' => some (.obj (dictSet cfs "dag" dag'))
      | none => none
  | _ => none

/-- `_set_enable_caching_value(pipeline_spec, enable_caching)` (lines 68-84):
walks the root component and every entry of the `components` dictionary,
rewriting the caching options of every task of every graph that has a `dag`
section; `none` models the exceptions Python raises on a malformed spec. -/
def _set_enable_caching_value (pipeline_spec : Json) (enable_caching : Bool) : Option Json :=
  match pipeline_spec with
  | .obj sfs =>
    match dictGet sfs "root", dictGet sfs "components" with
    | some root, some (.obj comps) =>
      match setComponentCaching enable_caching root,
            mapValuesM (setComponentCaching enable_caching) comps with
      | some root', some comps' =>
        some (.obj (dictSet (dictSet sfs "root" root') "components" (.obj comps')))
      | _, _ => none
    | _, _ => none
  | _ => none

/-- The guard in `PipelineJob.__init__` (lines 241-242): the caching rewrite
runs only when `enable_caching` is not `None`. -/
def applyEnableCaching (enable_caching : Option Bool) (pipeline_spec : Json) : Option Json :=
  match enable_caching with
  | none => some pipeline_spec
  | some b => _set_enable_caching_value pipeline_spec b

/-! ### Job identity -/

/-- Characters of the class appearing both in `_VALID_NAME_PATTERN` (line 57)
and in the substitution pattern of the job-id derivation (line 229): a hyphen,
a decimal digit, or a lowercase ASCII letter. -/
def isAllowedIdChar (c : Char) : Bool :=
  c == '-' || ('0' ≤ c && c ≤ '9') || ('a' ≤ c && c ≤ 'z')

/-- Scan implementing the regex substitution that maps every character run
outside the class to one hyphen; the flag records whether the previous
character belonged to a replaced run. -/
def collapseAux : Bool → List Char → List Char
  | _, [] => []
  | inRun, c :: rest =>
    if isAllowedIdChar c then c :: collapseAux false rest
    else if inRun then collapseAux true rest
    else '-' :: collapseAux true rest

/-- The substitution of line 229 on a character list. -/
def pySubNonAllowed (s : List Char) : List Char := collapseAux false s

/-- The wording of the spec for the same substitution: every maximal run of
characters outside the class becomes a single hyphen, and maximal runs of
characters inside the class are kept verbatim. -/
def specSub : List Char → List Char
  | [] => []
  | c :: rest =>
    if isAllowedIdChar c then
      (c :: rest.takeWhile isAllowedIdChar) ++ specSub (rest.dropWhile isAllowedIdChar)
    else
      '-' :: specSub (rest.dropWhile (fun d => ! isAllowedIdChar d))
termination_by s => s.length
decreasing_by
  · have h := (@List.dropWhile_sublist _ rest isAllowedIdChar).length_le
    simp only [List.length_cons]
    omega
  · have h := (@List.dropWhile_sublist _ rest (fun d => ! isAllowedIdChar d)).length_le
    simp only [List.length_cons]
    omega

/-- Python `.lstrip("-")`. -/
def lstripHyphen (s : List Char) : List Char := s.dropWhile (fun c => c == '-')

/-- Python `.rstrip("-")`. -/
def rstripHyphen (s : List Char) : List Char :=
  (s.reverse.dropWhile (fun c => c == '-')).reverse

/-- Python `.lower()`, modelled on the ASCII range. -/
def pythonLower (s : List Char) : List Char := s.map Char.toLower

/-- The derived job-id prefix of lines 229-231: lowercase, substitute runs
outside the class with one hyphen, strip hyphens from both ends. -/
def sanitizePipelineName (name : List Char) : List Char :=
  rstripHyphen (lstripHyphen (pySubNonAllowed (pythonLower name)))

/-- A wall-clock timestamp at second resolution, the value of
`_get_current_time()`. -/
structure DateTime where
  year : Nat
  month : Nat
  day : Nat
  hour : Nat
  minute : Nat
  second : Nat
deriving Repr, DecidableEq

/-- Zero-padded decimal rendering used by `strftime` fields. -/
def padNum (width n : Nat) : List Char :=
  let ds := (toString n).toList
  List.replicate (width - ds.length) '0' ++ ds

/-- The `strftime` format of line 232: year, month, day, hour, minute, second,
each zero-padded and concatenated without separators. -/
def formatTimestamp (t : DateTime) : List Char :=
  padNum 4 t.year ++ padNum 2 t.month ++ padNum 2 t.day ++
    padNum 2 t.hour ++ padNum 2 t.minute ++ padNum 2 t.second

/-- The job id derived by `PipelineJob.__init__` when none is supplied. -/
def derivePipelineJobId (pipeline_name : String) (now : DateTime) : String :=
  String.mk (sanitizePipelineName pipeline_name.toList ++ '-' :: formatTimestamp now)

/-- The job id derived by `PipelineJob.clone`, with the `cloned-` prefix. -/
def deriveClonedPipelineJobId (pipeline_name : String) (now : DateTime) : String :=
  String.mk ("cloned-".toList ++ sanitizePipelineName pipeline_name.toList
    ++ '-' :: formatTimestamp now)

/-- The assignment `job_id or derived` of line 228: Python treats a missing
and an empty explicit id as falsy. -/
def assignJobId (job_id : Option String) (pipeline_name : String) (now : DateTime) : String :=
  match job_id with
  | some s => if s.isEmpty then derivePipelineJobId pipeline_name now else s
  | none => derivePipelineJobId pipeline_name now

/-- The assignment `job_id or derived` of line 717 on the clone path. -/
def assignCloneJobId (job_id : Option String) (pipeline_name : String) (now : DateTime) : String :=
  match job_id with
  | some s => if s.isEmpty then deriveClonedPipelineJobId pipeline_name now else s
  | none => deriveClonedPipelineJobId pipeline_name now

/-- Lowercase ASCII letter, the leading-character class of the identity
pattern. -/
def isAsciiLowerAlpha (c : Char) : Bool := 'a' ≤ c && c ≤ 'z'

/-- `_VALID_NAME_PATTERN.match(s)` (line 57): a lowercase letter followed by
at most 127 characters that are lowercase alphanumerics or hyphens. -/
def matchesValidNamePattern (s : String) : Bool :=
  match s.toList with
  | [] => false
  | c :: rest => isAsciiLowerAlpha c && decide (rest.length ≤ 127) && rest.all isAllowedIdChar

/-- Job-id assignment and validation of `PipelineJob.__init__`
(lines 227-239): a failing match raises a `ValueError` locally, before any
request payload exists and before any network call. -/
def assignAndValidateJobId (job_id : Option String) (pipeline_name : String)
    (now : DateTime) : Except String String :=
  let id := assignJobId job_id pipeline_name now
  if matchesValidNamePattern id then .ok id
  else .error ("Generated job ID: " ++ id ++ " is illegal as a Vertex pipelines job ID.")

/-- Job-id assignment and validation on the clone path (lines 716-728). -/
def assignAndValidateCloneJobId (job_id : Option String) (pipeline_name : String)
    (now : DateTime) : Except String String :=
  let id := assignCloneJobId job_id pipeline_name now
  if matchesValidNamePattern id then .ok id
  else .error ("Generated job ID: " ++ id ++ " is illegal as a Vertex pipelines job ID.")

/-! ### Pipeline-root resolution -/

/-- The process-wide configuration (`initializer.global_config`) field read by
the root-resolution chain. -/
structure GlobalConfig where
  staging_bucket : Option String
deriving Repr

/-- Python truthiness of an optional string: `None` and the empty string are
falsy. -/
def pyTruthy : Option String → Bool
  | none => false
  | some s => !s.isEmpty

/-- Python `a or b` on optional strings: keeps `a` when truthy, otherwise
yields `b` (even when `b` is falsy). -/
def pyOr (a b : Option String) : Option String := if pyTruthy a then a else b

/-- Whether a JSON value is null; a key mapped to null reads as `None` in
Python, so `get("pipelineSpec") is not None` is false for it. -/
def Json.isNull : Json → Bool
  | .null => true
  | _ => false

/-- Failure of the root resolution itself: the full-job-spec branch reads
`pipeline_job["runtimeConfig"]` unconditionally once the two earlier
candidates are falsy, so a missing key raises. -/
inductive RootResolutionError where
  | keyError
deriving Repr, DecidableEq

/-- Pipeline-root chain of the bare-pipeline-spec branch (lines 207-216):
explicit argument, then the declared default root of the spec, then the
process-wide staging bucket. -/
def resolveRootBare (pipeline_root : Option String) (pipeline_json : Json)
    (config : GlobalConfig) : Except RootResolutionError (Option String) :=
  .ok (pyOr pipeline_root
    (pyOr (jgetStr pipeline_json "defaultPipelineRoot") config.staging_bucket))

/-- Pipeline-root chain of the full-job-spec branch (lines 199-206): explicit
argument, the declared default root of the spec, the previously set output
directory of the runtime config, then the staging bucket; the `or` chain is
lazy, so the runtime config is read only when the earlier candidates are
falsy. -/
def resolveRootFull (pipeline_root : Option String) (spec : Json) (pipeline_json : Json)
    (config : GlobalConfig) : Except RootResolutionError (Option String) :=
  if pyTruthy pipeline_root then .ok pipeline_root
  else if pyTruthy (jgetStr spec "defaultPipelineRoot") then
    .ok (jgetStr spec "defaultPipelineRoot")
  else
    match jget pipeline_json "runtimeConfig" with
    | none => .error .keyError
    | some rc => .ok (pyOr (jgetStr rc "gcsOutputDirectory") config.staging_bucket)

/-- Pipeline-root resolution of `PipelineJob.__init__` (lines 199-216): the
template counts as a full job spec exactly when it has a non-null
`pipelineSpec` key. -/
def resolvePipelineRoot (pipeline_root : Option String) (pipeline_json : Json)
    (config : GlobalConfig) : Except RootResolutionError (Option String) :=
  match jget pipeline_json "pipelineSpec" with
  | some spec =>
    if spec.isNull then resolveRootBare pipeline_root pipeline_json config
    else resolveRootFull pipeline_root spec pipeline_json config
  | none => resolveRootBare pipeline_root pipeline_json config

/-- Failure of the runtime-config build step. -/
inductive BuildError where
  | configError
deriving Repr, DecidableEq

/-- Modelled from the spec: the runtime-config builder
(`PipelineRuntimeConfigBuilder` of `pipeline_utils`, outside this excerpt)
fails with a ConfigError when the pipeline root does not resolve to a
non-empty value, and otherwise records the resolved root. -/
def buildRuntimeConfigRoot : Option String → Except BuildError String
  | some s => if s.isEmpty then .error .configError else .ok s
  | none => .error .configError

/-- First truthy candidate of a priority list, the shape in which the claims
state the resolution order. -/
def firstNonEmpty : List (Option String) → Option String
  | [] => none
  | a :: rest => if pyTruthy a then a else firstNonEmpty rest

/-! ### Blocking wait loop -/

/-- Outcome of the blocking wait: a normal return, or the raised error
carrying the remote-reported error payload. -/
inductive WaitOutcome where
  | completed
  | raised (error : String)
deriving Repr, DecidableEq

/-- Observable behaviour of one run of the wait loop under the simulated
clock: the simulated times of the state polls and of the progress-log
emissions, the state observed at exit, and the outcome. -/
structure WaitTrace where
  pollTimes : List Nat
  logTimes : List Nat
  finalState : PipelineState
  outcome : WaitOutcome
deriving Repr, DecidableEq

/-- `_block_until_complete` (lines 391-420) under a simulated clock:
`time.time()` returns the simulated time and `time.sleep(wait)` advances it by
`wait = 5` seconds, so the n-th poll happens at simulated time `5 * n`.
`states n` and `errors n` are the state and the error payload of the remote
resource at the n-th poll; `prev` and `logWait` carry `previous_time` and
`log_wait`; `fuel` bounds the iteration count, since the Python loop does not
terminate on a state sequence that never reaches a complete state. -/
def blockLoopAux (states : Nat → PipelineState) (errors : Nat → String) :
    Nat → Nat → Nat → Nat → List Nat → List Nat → Option WaitTrace
  | 0, _, _, _, _, _ => none
  | fuel + 1, n, prev, logWait, polls, logs =>
    if states n ∈ _PIPELINE_COMPLETE_STATES then
      some (WaitTrace.mk (polls ++ [5 * n]) logs (states n)
        (if states n ∈ _PIPELINE_ERROR_STATES then WaitOutcome.raised (errors n)
         else WaitOutcome.completed))
    else if logWait ≤ 5 * n - prev then
      blockLoopAux states errors fuel (n + 1) (5 * n) (min (logWait * 2) 300)
        (polls ++ [5 * n]) (logs ++ [5 * n])
    else
      blockLoopAux states errors fuel (n + 1) prev logWait (polls ++ [5 * n]) logs

/-- Entry point of the simulated wait loop, with the constants of the source:
`wait = 5`, `log_wait = 5`, `max_wait = 300`, `multiplier = 2`, and
`previous_time` sampled on entry at simulated time 0. -/
def _block_until_complete (states : Nat → PipelineState) (errors : Nat → String)
    (fuel : Nat) : Option WaitTrace :=
  blockLoopAux states errors fuel 0 0 5 [] []

/-- The expected log-emission schedule 5, 15, 35, 75, 155, 315, 615, ...: the
k-th inter-emission interval is `5 * 2 ^ k` capped at 300 seconds. -/
def logSchedule : Nat → Nat
  | 0 => 5
  | k + 1 => logSchedule k + min (5 * 2 ^ (k + 1)) 300

/-! ### Clone -/

/-- Python truthiness of an optional JSON value: `None`, empty containers,
the empty string, zero and false are falsy. -/
def pyJsonTruthy : Option Json → Bool
  | none => false
  | some .null => false
  | some (.bool b) => b
  | some (.num n) => n != 0
  | some (.str s) => !s.isEmpty
  | some (.arr xs) => !xs.isEmpty
  | some (.obj fs) => !fs.isEmpty

/-- The fallback shape used by `clone` for the display name and the labels: a
truthy override wins, otherwise the field of the original request when
present. -/
def resolveClonedField (param : Option Json) (original : Option Json) : Option Json :=
  if pyJsonTruthy param then param
  else
    match original with
    | some v => some v
    | none => param

/-- Failures of the clone path. -/
inductive CloneError where
  | keyError
  | validationError (id : String)
deriving Repr, DecidableEq

/-- The request payload assembled by `clone` for the new, unsubmitted job,
together with the locally assigned job id. -/
structure PipelineJobRequest where
  job_id : String
  display_name : Option Json
  pipeline_spec : Json
  labels : Option Json
  runtime_config : Json
  encryption_spec : Json
deriving Repr

/-- Modelled from the spec: the runtime-config builder used on the clone path
(`PipelineRuntimeConfigBuilder.from_job_spec_json` followed by
`update_pipeline_root` and `update_runtime_parameters`, outside this excerpt)
starts from the runtime config of the original request, applies the explicit
root override when non-empty, and applies the parameter overrides. -/
def buildCloneRuntimeConfig (pipeline_job : Json) (pipeline_root : Option String)
    (parameter_values : Option Json) : Json :=
  let rc0 := match jget pipeline_job "runtimeConfig" with
    | some v => v
    | none => Json.obj []
  let rc1 := match pipeline_root with
    | some s =>
      if s.isEmpty then rc0
      else
        match rc0 with
        | .obj fs => Json.obj (dictSet fs "gcsOutputDirectory" (.str s))
        | _ => rc0
    | none => rc0
  match parameter_values with
  | none => rc1
  | some pv =>
    match rc1 with
    | .obj fs => Json.obj (dictSet fs "parameterValues" pv)
    | _ => rc1

/-- `PipelineJob.clone` (lines 625-767): strips `deploymentConfig` from the
pipeline spec of the last-known request, optionally rewrites caching, derives
and validates the new job id with the `cloned-` prefix, falls back to the
fields of the original request for display name, labels and encryption, and
rebuilds the runtime config; `get_encryption_spec` stands for
`initializer.global_config.get_encryption_spec`. -/
def clonePipelineJob (pipeline_job : Json) (display_name : Option String)
    (job_id : Option String) (pipeline_root : Option String) (parameter_values : Option Json)
    (enable_caching : Option Bool) (encryption_spec_key_name : Option String)
    (labels : Option Json) (get_encryption_spec : Option String → Json) (now : DateTime) :
    Except CloneError PipelineJobRequest :=
  match jget pipeline_job "pipelineSpec" with
  | none => .error .keyError
  | some spec0 =>
    let spec1 := jdeleteKey spec0 "deploymentConfig"
    match applyEnableCaching enable_caching spec1 with
    | none => .error .keyError
    | some pipeline_spec =>
      match jget pipeline_spec "pipelineInfo" with
      | none => .error .keyError
      | some pinfo =>
        match jget pinfo "name" with
        | some (.str pipeline_name) =>
          let id := assignCloneJobId job_id pipeline_name now
          if matchesValidNamePattern id then
            .ok (PipelineJobRequest.mk id
              (resolveClonedField (display_name.map Json.str) (jget pipeline_job "displayName"))
              pipeline_spec
              (resolveClonedField labels (jget pipeline_job "labels"))
              (buildCloneRuntimeConfig pipeline_job pipeline_root parameter_values)
              (match jget pipeline_job "encryptionSpec" with
               | some enc =>
                 if pyTruthy encryption_spec_key_name then
                   get_encryption_spec encryption_spec_key_name
                 else enc
               | none => get_encryption_spec encryption_spec_key_name))
          else .error (.validationError id)
        | _ => .error .keyError

/-! ### Lineage-context lookup -/

/-- One synchronized snapshot of the remote job resource, as read by
`_get_context`. -/
structure JobSnapshot where
  state : PipelineState
  pipeline_run_context : Option Json
  error : String

/-- Outcome of the lineage-context lookup. -/
inductive GetContextOutcome where
  | ok (ctx : Json)
  | errCannotAssociateFailed (error : String)
  | errContextNotFound

/-- In the source the guard after the polling loop reads the attribute
`self._has_failed` without calling it; `_has_failed` is a method, so the
condition tests the bound-method object itself, which is always truthy in
Python. -/
def boundMethodTruthy : Bool := true

/-- The polling loop of `_get_context`: while the job is not done, re-read the
pipeline-run context once per second, leaving the loop as soon as a context
appears; once the job is done the loop keeps the context variable read on the
previous iteration.  Returns the context variable and the index of the final
snapshot. -/
def getContextLoop (snapshots : Nat → JobSnapshot) :
    Nat → Nat → Option Json → Option (Option Json × Nat)
  | 0, _, _ => none
  | fuel + 1, n, ctx =>
    if (snapshots n).state ∈ _PIPELINE_COMPLETE_STATES then some (ctx, n)
    else
      match (snapshots n).pipeline_run_context with
      | some c => some (some c, n)
      | none => getContextLoop snapshots fuel (n + 1) none

/-- `_get_context` (lines 533-567): after the loop, a missing context hits the
guard on the uncalled method and therefore always raises the variant carrying
the remote error payload. -/
def _get_context (snapshots : Nat → JobSnapshot) (fuel : Nat) : Option GetContextOutcome :=
  match getContextLoop snapshots fuel 0 (snapshots 0).pipeline_run_context with
  | none => none
  | some (some c, _) => some (.ok c)
  | some (none, n) =>
    some (if boundMethodTruthy then .errCannotAssociateFailed (snapshots n).error
          else .errContextNotFound)

/-! ### Predicates used by the caching claims -/

/-- The task carries exactly the overridden caching flag. -/
def taskCarriesCaching (b : Bool) (task : Json) : Prop :=
  ∃ fs, task = Json.obj fs ∧
    dictGet fs "cachingOptions" = some (Json.obj [("enableCache", Json.bool b)])

/-- Every task of the dag of the component, when the component has one,
carries the overridden caching flag. -/
def componentTasksCarryCaching (b : Bool) (component : Json) : Prop :=
  ∀ cfs dfs tfs, component = Json.obj cfs →
    dictGet cfs "dag" = some (Json.obj dfs) →
    dictGet dfs "tasks" = some (Json.obj tfs) →
    ∀ p ∈ tfs, taskCarriesCaching b p.2

/-- All fields of the task other than its caching options are unchanged. -/
def TaskFrame (t t' : Json) : Prop :=
  ∀ key, key ≠ "cachingOptions" → jget t' key = jget t key

/-- The dag changed only inside the caching options of its tasks. -/
def DagFrame (d d' : Json) : Prop :=
  (∀ key, key ≠ "tasks" → jget d' key = jget d key) ∧
  ∃ tfs tfs', jget d "tasks" = some (Json.obj tfs) ∧ jget d' "tasks" = some (Json.obj tfs') ∧
    List.Forall₂ (fun p q => p.1 = q.1 ∧ TaskFrame p.2 q.2) tfs tfs'

/-- The component changed only inside the caching options of the tasks of its
dag, and is untouched when it has no dag. -/
def ComponentFrame (c c' : Json) : Prop :=
  (jget c "dag" = none → c' = c) ∧
  (∀ key, key ≠ "dag" → jget c' key = jget c key) ∧
  (∀ dg, jget c "dag" = some dg → ∃ dg', jget c' "dag" = some dg' ∧ DagFrame dg dg')

/-! ### Concrete inputs used by witnesses and counterexamples -/

/-- Simulated state sequence of the spec scenario: pending, pending, running,
running, succeeded. -/
def exampleStates (n : Nat) : PipelineState :=
  [PipelineState.pending, .pending, .running, .running, .succeeded].getD n .succeeded

/-- Simulated state sequence that fails at the second poll. -/
def exampleFailingStates (n : Nat) : PipelineState :=
  [PipelineState.pending, .failed].getD n .failed

/-- A small pipeline spec: a root dag with one task, one component with a dag
with one task, and one component without a dag. -/
def examplePipelineSpec : Json :=
  Json.obj [
    ("pipelineInfo", Json.obj [("name", Json.str "demo-flow")]),
    ("root", Json.obj [("dag", Json.obj [("tasks", Json.obj
      [("train", Json.obj [("taskInfo", Json.str "train"),
        ("cachingOptions", Json.obj [("enableCache", Json.bool false)])])])])]),
    ("components", Json.obj [
      ("comp-a", Json.obj [("dag", Json.obj [("tasks", Json.obj
        [("step", Json.obj [("taskInfo", Json.str "step")])])])]),
      ("comp-b", Json.obj [("executorLabel", Json.str "exec")])]),
    ("schemaVersion", Json.str "2.1.0")]

/-- The last-known request payload of an original job. -/
def exampleOriginalPipelineJob : Json :=
  Json.obj [
    ("displayName", Json.str "demo"),
    ("pipelineSpec", Json.obj [
      ("pipelineInfo", Json.obj [("name", Json.str "demo-flow")]),
      ("root", Json.obj []),
      ("components", Json.obj []),
      ("deploymentConfig", Json.obj [("executor", Json.str "e")])]),
    ("runtimeConfig", Json.obj [("gcsOutputDirectory", Json.str "gs://bucket/root")]),
    ("labels", Json.obj [("team", Json.str "a")]),
    ("encryptionSpec", Json.obj [("kmsKeyName", Json.str "projects/p/key")])]

/-- A pattern-valid identity the original job may have been given explicitly. -/
def exampleExplicitJobId : String := "cloned-demo-flow-20240102030405"

/-- The simulated clone time 2024-01-02T03:04:05. -/
def exampleCloneTime : DateTime := DateTime.mk 2024 1 2 3 4 5

/-- The outcome the claims expect of the build step: the first truthy
candidate of the priority list, or a ConfigError when there is none. -/
def rootBuildResult (candidates : List (Option String)) : Except BuildError String :=
  match firstNonEmpty candidates with
  | some s => .ok s
  | none => .error .configError

/-- A full job spec template: it has a `pipelineSpec` section and a
`runtimeConfig` section with a previously set output directory. -/
def exampleFullPipelineJobJson : Json :=
  Json.obj [
    ("pipelineSpec", Json.obj [("pipelineInfo", Json.obj [("name", Json.str "demo-flow")])]),
    ("runtimeConfig", Json.obj [("gcsOutputDirectory", Json.str "gs://prev-output")])]

/-- Snapshots of a job that reached the terminal state succeeded without ever
producing a pipeline-run context. -/
def exampleSucceededNoContext (_n : Nat) : JobSnapshot :=
  JobSnapshot.mk PipelineState.succeeded none ""

/-! ### Theorems -/

theorem dictGet_dictSet_self (fs : List (String × Json)) (k : String) (v : Json) :
    dictGet (dictSet fs k v) k = some v := by
  induction fs with
  | nil => simp [dictSet, dictGet]
  | cons p rest ih =>
    by_cases h : p.1 = k
    · simp [dictSet, dictGet, h]
    · simp [dictSet, dictGet, h, ih]

theorem dictGet_dictSet_ne (fs : List (String × Json)) (k k' : String) (v : Json)
    (h : k' ≠ k) : dictGet (dictSet fs k v) k' = dictGet fs k' := by
  have hks : k ≠ k' := Ne.symm h
  induction fs with
  | nil => simp [dictSet, dictGet, hks]
  | cons p rest ih =>
    by_cases hp : p.1 = k
    · have hpk' : ¬ p.1 = k' := by
        rw [hp]
        exact hks
      simp [dictSet, dictGet, hp, hks, hpk']
    · by_cases hp' : p.1 = k'
      · simp [dictSet, dictGet, hp, hp', h, hks]
      · simp [dictSet, dictGet, hp, hp', ih]

theorem dictSet_dictSet_self (fs : List (String × Json)) (k : String) (v w : Json) :
    dictSet (dictSet fs k v) k w = dictSet fs k w := by
  induction fs with
  | nil => simp [dictSet]
  | cons p rest ih =>
    by_cases h : p.1 = k
    · simp [dictSet, h]
    · simp [dictSet, h, ih]

theorem dictSet_of_dictGet_eq (fs : List (String × Json)) (k : String) (v : Json)
    (h : dictGet fs k = some v) : dictSet fs k v = fs := by
  induction fs with
  | nil => simp [dictGet] at h
  | cons p rest ih =>
    obtain ⟨a, b⟩ := p
    by_cases hp : a = k
    · subst hp
      simp [dictGet] at h
      simp [dictSet, h]
    · simp [dictGet, hp] at h
      simp [dictSet, hp, ih h]

theorem dictGet_dictDelete_ne (fs : List (String × Json)) (k k' : String)
    (h : k' ≠ k) : dictGet (dictDelete fs k) k' = dictGet fs k' := by
  have hks : k ≠ k' := Ne.symm h
  induction fs with
  | nil => simp [dictDelete]
  | cons p rest ih =>
    by_cases hp : p.1 = k
    · have hpk' : ¬ p.1 = k' := by
        rw [hp]
        exact hks
      simp [dictDelete, dictGet, hp, hks, hpk']
    · by_cases hp' : p.1 = k'
      · simp [dictDelete, dictGet, hp, hp', h, hks]
      · simp [dictDelete, dictGet, hp, hp', ih]
theorem mapValuesM_mem (f : Json → Option Json) :
    ∀ xs ys, mapValuesM f xs = some ys →
      ∀ p ∈ ys, ∃ v, (p.1, v) ∈ xs ∧ f v = some p.2 := by
  intro xs
  induction xs with
  | nil =>
    intro ys h p hp
    simp only [mapValuesM, Option.some.injEq] at h
    subst h
    simp at hp
  | cons q rest ih =>
    intro ys h p hp
    obtain ⟨qk, qv⟩ := q
    simp only [mapValuesM] at h
    cases hf : f qv with
    | none => rw [hf] at h; simp at h
    | some v' =>
      rw [hf] at h
      cases hr : mapValuesM f rest with
      | none => rw [hr] at h; simp at h
      | some rest' =>
        rw [hr] at h
        simp only [Option.some.injEq] at h
        subst h
        rcases List.mem_cons.mp hp with hp | hp
        · subst hp
          exact ⟨qv, List.mem_cons_self _ _, hf⟩
        · obtain ⟨v, hv, hfv⟩ := ih rest' hr p hp
          exact ⟨v, List.mem_cons_of_mem _ hv, hfv⟩

theorem mapValuesM_forall2 (f : Json → Option Json) (R : Json → Json → Prop)
    (hf : ∀ v v', f v = some v' → R v v') :
    ∀ xs ys, mapValuesM f xs = some ys →
      List.Forall₂ (fun p q => p.1 = q.1 ∧ R p.2 q.2) xs ys := by
  intro xs
  induction xs with
  | nil =>
    intro ys h
    simp only [mapValuesM, Option.some.injEq] at h
    subst h
    exact List.Forall₂.nil
  | cons q rest ih =>
    intro ys h
    obtain ⟨qk, qv⟩ := q
    simp only [mapValuesM] at h
    cases hfq : f qv with
    | none => rw [hfq] at h; simp at h
    | some v' =>
      rw [hfq] at h
      cases hr : mapValuesM f rest with
      | none => rw [hr] at h; simp at h
      | some rest' =>
        rw [hr] at h
        simp only [Option.some.injEq] at h
        subst h
        exact List.Forall₂.cons ⟨rfl, hf qv v' hfq⟩ (ih rest' hr)

theorem mapValuesM_idem (f : Json → Option Json)
    (hf : ∀ v v', f v = some v' → f v' = some v') :
    ∀ xs ys, mapValuesM f xs = some ys → mapValuesM f ys = some ys := by
  intro xs
  induction xs with
  | nil =>
    intro ys h
    simp only [mapValuesM, Option.some.injEq] at h
    subst h
    rfl
  | cons q rest ih =>
    intro ys h
    obtain ⟨qk, qv⟩ := q
    simp only [mapValuesM] at h
    cases hfq : f qv with
    | none => rw [hfq] at h; simp at h
    | some v' =>
      rw [hfq] at h
      cases hr : mapValuesM f rest with
      | none => rw [hr] at h; simp at h
      | some rest' =>
        rw [hr] at h
        simp only [Option.some.injEq] at h
        subst h
        simp only [mapValuesM, hf qv v' hfq, ih rest' hr]

theorem setTaskCaching_idem (b : Bool) (t t' : Json)
    (h : setTaskCaching b t = some t') : setTaskCaching b t' = some t' := by
  cases t with
  | obj fs =>
    simp only [setTaskCaching, Option.some.injEq] at h
    subst h
    simp only [setTaskCaching, dictSet_dictSet_self]
  | null => simp [setTaskCaching] at h
  | bool x => simp [setTaskCaching] at h
  | num x => simp [setTaskCaching] at h
  | str x => simp [setTaskCaching] at h
  | arr x => simp [setTaskCaching] at h

theorem setDagTasksCaching_idem (b : Bool) (d d' : Json)
    (h : setDagTasksCaching b d = some d') : setDagTasksCaching b d' = some d' := by
  cases d with
  | obj dfs =>
    simp only [setDagTasksCaching] at h
    cases ht : dictGet dfs "tasks" with
    | none => rw [ht] at h; simp at h
    | some tj =>
      rw [ht] at h
      cases tj with
      | obj tfs =>
        dsimp only at h
        cases hm : mapValuesM (setTaskCaching b) tfs with
        | none => rw [hm] at h; simp at h
        | some tfs' =>
          rw [hm] at h
          simp only [Option.some.injEq] at h
          subst h
          have hmi : mapValuesM (setTaskCaching b) tfs' = some tfs' :=
            mapValuesM_idem _ (setTaskCaching_idem b) tfs tfs' hm
          simp only [setDagTasksCaching, dictGet_dictSet_self, hmi, dictSet_dictSet_self]
      | null => simp at h
      | bool x => simp at h
      | num x => simp at h
      | str x => simp at h
      | arr x => simp at h
  | null => simp [setDagTasksCaching] at h
  | bool x => simp [setDagTasksCaching] at h
  | num x => simp [setDagTasksCaching] at h
  | str x => simp [setDagTasksCaching] at h
  | arr x => simp [setDagTasksCaching] at h

theorem setComponentCaching_idem (b : Bool) (c c' : Json)
    (h : setComponentCaching b c = some c') : setComponentCaching b c' = some c' := by
  cases c with
  | obj cfs =>
    simp only [setComponentCaching] at h
    cases hd : dictGet cfs "dag" with
    | none =>
      rw [hd] at h
      simp only [Option.some.injEq] at h
      subst h
      simp only [setComponentCaching, hd]
    | some dag =>
      rw [hd] at h
      dsimp only at h
      cases hs : setDagTasksCaching b dag with
      | none => rw [hs] at h; simp at h
      | some dag' =>
        rw [hs] at h
        simp only [Option.some.injEq] at h
        subst h
        have hsi : setDagTasksCaching b dag' = some dag' :=
          setDagTasksCaching_idem b dag dag' hs
        simp only [setComponentCaching, dictGet_dictSet_self, hsi, dictSet_dictSet_self]
  | null => simp [setComponentCaching] at h
  | bool x => simp [setComponentCaching] at h
  | num x => simp [setComponentCaching] at h
  | str x => simp [setComponentCaching] at h
  | arr x => simp [setComponentCaching] at h

theorem set_enable_caching_idem (spec : Json) (b : Bool) (spec' : Json)
    (h : _set_enable_caching_value spec b = some spec') :
    _set_enable_caching_value spec' b = some spec' := by
  cases spec with
  | obj sfs =>
    simp only [_set_enable_caching_value] at h
    cases hr : dictGet sfs "root" with
    | none => rw [hr] at h; simp at h
    | some root =>
      rw [hr] at h
      cases hc : dictGet sfs "components" with
      | none => rw [hc] at h; simp at h
      | some cj =>
        rw [hc] at h
        cases cj with
        | obj comps =>
          dsimp only at h
          cases hrc : setComponentCaching b root with
          | none => rw [hrc] at h; simp at h
          | some root' =>
            rw [hrc] at h
            cases hmc : mapValuesM (setComponentCaching b) comps with
            | none => rw [hmc] at h; simp at h
            | some comps' =>
              rw [hmc] at h
              simp only [Option.some.injEq] at h
              subst h
              have hne : ("root" : String) ≠ "components" := by decide
              have hAr : dictGet (dictSet (dictSet sfs "root" root') "components"
                  (Json.obj comps')) "root" = some root' := by
                rw [dictGet_dictSet_ne _ _ _ _ hne]
                exact dictGet_dictSet_self _ _ _
              have hAc : dictGet (dictSet (dictSet sfs "root" root') "components"
                  (Json.obj comps')) "components" = some (Json.obj comps') :=
                dictGet_dictSet_self _ _ _
              have hri : setComponentCaching b root' = some root' :=
                setComponentCaching_idem b root root' hrc
              have hmi : mapValuesM (setComponentCaching b) comps' = some comps' :=
                mapValuesM_idem _ (setComponentCaching_idem b) comps comps' hmc
              simp only [_set_enable_caching_value, hAr, hAc, hri, hmi,
                Option.some.injEq, Json.obj.injEq]
              rw [dictSet_of_dictGet_eq _ _ _ hAr, dictSet_of_dictGet_eq _ _ _ hAc]
        | null => simp at h
        | bool x => simp at h
        | num x => simp at h
        | str x => simp at h
        | arr x => simp at h
  | null => simp [_set_enable_caching_value] at h
  | bool x => simp [_set_enable_caching_value] at h
  | num x => simp [_set_enable_caching_value] at h
  | str x => simp [_set_enable_caching_value] at h
  | arr x => simp [_set_enable_caching_value] at h

/-- Claim C6: the caching toggle is idempotent: for every pipeline spec and
every boolean flag, applying `_set_enable_caching_value` twice with the same
flag yields exactly the same pipeline spec as applying it once. -/
theorem claim_C6_caching_idempotent :
    ∀ (spec : Json) (b : Bool),
      (_set_enable_caching_value spec b).bind (fun s => _set_enable_caching_value s b) =
        _set_enable_caching_value spec b := by
  intro spec b
  cases hres : _set_enable_caching_value spec b with
  | none => rfl
  | some spec' =>
    exact set_enable_caching_idem spec b spec' hres

theorem setTaskCaching_carries (b : Bool) (v w : Json)
    (h : setTaskCaching b v = some w) : taskCarriesCaching b w := by
  cases v with
  | obj fs =>
    simp only [setTaskCaching, Option.some.injEq] at h
    subst h
    exact ⟨_, rfl, dictGet_dictSet_self _ _ _⟩
  | null => simp [setTaskCaching] at h
  | bool x => simp [setTaskCaching] at h
  | num x => simp [setTaskCaching] at h
  | str x => simp [setTaskCaching] at h
  | arr x => simp [setTaskCaching] at h

theorem setComponentCaching_carries (b : Bool) (c c' : Json)
    (h : setComponentCaching b c = some c') : componentTasksCarryCaching b c' := by
  cases c with
  | obj cfs =>
    simp only [setComponentCaching] at h
    cases hd : dictGet cfs "dag" with
    | none =>
      rw [hd] at h
      simp only [Option.some.injEq] at h
      subst h
      intro cfs' dfs tfs hc hdag htasks
      rw [Json.obj.injEq] at hc
      subst hc
      rw [hd] at hdag
      exact absurd hdag (by simp)
    | some dag =>
      rw [hd] at h
      dsimp only at h
      cases hs : setDagTasksCaching b dag with
      | none => rw [hs] at h; simp at h
      | some dag' =>
        rw [hs] at h
        simp only [Option.some.injEq] at h
        subst h
        cases dag with
        | obj dfs0 =>
          simp only [setDagTasksCaching] at hs
          cases ht : dictGet dfs0 "tasks" with
          | none => rw [ht] at hs; simp at hs
          | some tj =>
            rw [ht] at hs
            cases tj with
            | obj tfs0 =>
              dsimp only at hs
              cases hm : mapValuesM (setTaskCaching b) tfs0 with
              | none => rw [hm] at hs; simp at hs
              | some tfs' =>
                rw [hm] at hs
                simp only [Option.some.injEq] at hs
                subst hs
                intro cfs' dfs tfs hc hdag htasks
                rw [Json.obj.injEq] at hc
                subst hc
                rw [dictGet_dictSet_self] at hdag
                simp only [Option.some.injEq, Json.obj.injEq] at hdag
                subst hdag
                rw [dictGet_dictSet_self] at htasks
                simp only [Option.some.injEq, Json.obj.injEq] at htasks
                subst htasks
                intro p hp
                obtain ⟨v, _, hfv⟩ := mapValuesM_mem (setTaskCaching b) tfs0 _ hm p hp
                exact setTaskCaching_carries b v p.2 hfv
            | null => simp at hs
            | bool x => simp at hs
            | num x => simp at hs
            | str x => simp at hs
            | arr x => simp at hs
        | null => simp [setDagTasksCaching] at hs
        | bool x => simp [setDagTasksCaching] at hs
        | num x => simp [setDagTasksCaching] at hs
        | str x => simp [setDagTasksCaching] at hs
        | arr x => simp [setDagTasksCaching] at hs
  | null => simp [setComponentCaching] at h
  | bool x => simp [setComponentCaching] at h
  | num x => simp [setComponentCaching] at h
  | str x => simp [setComponentCaching] at h
  | arr x => simp [setComponentCaching] at h

/-- Claim C5: when `enable_caching` is explicitly set, every task definition
in the root dag and in the dag of every component of the pipeline spec is
rewritten to carry that caching flag, overriding any per-task setting of the
template; when `enable_caching` is left unset, the spec is preserved
untouched. -/
theorem claim_C5_caching_rewrites_all_graphs :
    (∀ (spec : Json) (b : Bool) (spec' : Json),
      _set_enable_caching_value spec b = some spec' →
      ∃ sfs' root' comps', spec' = Json.obj sfs' ∧
        dictGet sfs' "root" = some root' ∧
        dictGet sfs' "components" = some (Json.obj comps') ∧
        componentTasksCarryCaching b root' ∧
        (∀ p ∈ comps', componentTasksCarryCaching b p.2)) ∧
    (∀ spec : Json, applyEnableCaching none spec = some spec) := by
  constructor
  · intro spec b spec' h
    cases spec with
    | obj sfs =>
      simp only [_set_enable_caching_value] at h
      cases hr : dictGet sfs "root" with
      | none => rw [hr] at h; simp at h
      | some root =>
        rw [hr] at h
        cases hc : dictGet sfs "components" with
        | none => rw [hc] at h; simp at h
        | some cj =>
          rw [hc] at h
          cases cj with
          | obj comps =>
            dsimp only at h
            cases hrc : setComponentCaching b root with
            | none => rw [hrc] at h; simp at h
            | some root' =>
              rw [hrc] at h
              cases hmc : mapValuesM (setComponentCaching b) comps with
              | none => rw [hmc] at h; simp at h
              | some comps' =>
                rw [hmc] at h
                simp only [Option.some.injEq] at h
                subst h
                have hne : ("root" : String) ≠ "components" := by decide
                refine ⟨_, root', comps', rfl, ?_, dictGet_dictSet_self _ _ _, ?_, ?_⟩
                · rw [dictGet_dictSet_ne _ _ _ _ hne]
                  exact dictGet_dictSet_self _ _ _
                · exact setComponentCaching_carries b root root' hrc
                · intro p hp
                  obtain ⟨v, _, hfv⟩ :=
                    mapValuesM_mem (setComponentCaching b) comps comps' hmc p hp
                  exact setComponentCaching_carries b v p.2 hfv
          | null => simp at h
          | bool x => simp at h
          | num x => simp at h
          | str x => simp at h
          | arr x => simp at h
    | null => simp [_set_enable_caching_value] at h
    | bool x => simp [_set_enable_caching_value] at h
    | num x => simp [_set_enable_caching_value] at h
    | str x => simp [_set_enable_caching_value] at h
    | arr x => simp [_set_enable_caching_value] at h
  · intro spec
    rfl

/-- Witness for claim C5 on the concrete example spec with a root dag, one
component with a dag and one component without a dag. -/
theorem claim_C5_witness :
    ∃ spec', _set_enable_caching_value examplePipelineSpec true = some spec' ∧
      ∃ sfs' root' comps', spec' = Json.obj sfs' ∧
        dictGet sfs' "root" = some root' ∧
        dictGet sfs' "components" = some (Json.obj comps') ∧
        componentTasksCarryCaching true root' ∧
        (∀ p ∈ comps', componentTasksCarryCaching true p.2) :=
  ⟨_, rfl, claim_C5_caching_rewrites_all_graphs.1 examplePipelineSpec true _ rfl⟩

theorem setTaskCaching_frame (b : Bool) (t t' : Json)
    (h : setTaskCaching b t = some t') : TaskFrame t t' := by
  cases t with
  | obj fs =>
    simp only [setTaskCaching, Option.some.injEq] at h
    subst h
    intro key hkey
    simp only [jget]
    exact dictGet_dictSet_ne _ _ _ _ hkey
  | null => simp [setTaskCaching] at h
  | bool x => simp [setTaskCaching] at h
  | num x => simp [setTaskCaching] at h
  | str x => simp [setTaskCaching] at h
  | arr x => simp [setTaskCaching] at h

theorem setDagTasksCaching_frame (b : Bool) (d d' : Json)
    (h : setDagTasksCaching b d = some d') : DagFrame d d' := by
  cases d with
  | obj dfs =>
    simp only [setDagTasksCaching] at h
    cases ht : dictGet dfs "tasks" with
    | none => rw [ht] at h; simp at h
    | some tj =>
      rw [ht] at h
      cases tj with
      | obj tfs =>
        dsimp only at h
        cases hm : mapValuesM (setTaskCaching b) tfs with
        | none => rw [hm] at h; simp at h
        | some tfs' =>
          rw [hm] at h
          simp only [Option.some.injEq] at h
          subst h
          constructor
          · intro key hkey
            simp only [jget]
            exact dictGet_dictSet_ne _ _ _ _ hkey
          · refine ⟨tfs, tfs', ht, dictGet_dictSet_self _ _ _, ?_⟩
            exact mapValuesM_forall2 _ TaskFrame (setTaskCaching_frame b) tfs tfs' hm
      | null => simp at h
      | bool x => simp at h
      | num x => simp at h
      | str x => simp at h
      | arr x => simp at h
  | null => simp [setDagTasksCaching] at h
  | bool x => simp [setDagTasksCaching] at h
  | num x => simp [setDagTasksCaching] at h
  | str x => simp [setDagTasksCaching] at h
  | arr x => simp [setDagTasksCaching] at h

theorem setComponentCaching_frame (b : Bool) (c c' : Json)
    (h : setComponentCaching b c = some c') : ComponentFrame c c' := by
  cases c with
  | obj cfs =>
    simp only [setComponentCaching] at h
    cases hd : dictGet cfs "dag" with
    | none =>
      rw [hd] at h
      simp only [Option.some.injEq] at h
      subst h
      refine ⟨fun _ => rfl, fun key _ => rfl, ?_⟩
      intro dg hdg
      simp only [jget] at hdg
      rw [hd] at hdg
      exact absurd hdg (by simp)
    | some dag =>
      rw [hd] at h
      dsimp only at h
      cases hs : setDagTasksCaching b dag with
      | none => rw [hs] at h; simp at h
      | some dag' =>
        rw [hs] at h
        simp only [Option.some.injEq] at h
        subst h
        refine ⟨?_, ?_, ?_⟩
        · intro hnone
          simp only [jget] at hnone
          rw [hd] at hnone
          exact absurd hnone (by simp)
        · intro key hkey
          simp only [jget]
          exact dictGet_dictSet_ne _ _ _ _ hkey
        · intro dg hdg
          simp only [jget] at hdg
          rw [hd] at hdg
          simp only [Option.some.injEq] at hdg
          subst hdg
          refine ⟨dag', ?_, setDagTasksCaching_frame b _ dag' hs⟩
          simp only [jget]
          exact dictGet_dictSet_self _ _ _
  | null => simp [setComponentCaching] at h
  | bool x => simp [setComponentCaching] at h
  | num x => simp [setComponentCaching] at h
  | str x => simp [setComponentCaching] at h
  | arr x => simp [setComponentCaching] at h

/-- Claim C10: `_set_enable_caching_value` modifies only the caching options
of tasks inside graphs that have a `dag` section: a component without a `dag`
key is left completely unchanged rather than causing a failure, and every
field of the spec other than the caching options of tasks is left
unchanged. -/
theorem claim_C10_caching_frame :
    (∀ (b : Bool) (cfs : List (String × Json)),
      dictGet cfs "dag" = none →
      setComponentCaching b (Json.obj cfs) = some (Json.obj cfs)) ∧
    (∀ (spec : Json) (b : Bool) (spec' : Json),
      _set_enable_caching_value spec b = some spec' →
      (∀ key, key ≠ "root" → key ≠ "components" → jget spec' key = jget spec key) ∧
      (∃ root root', jget spec "root" = some root ∧ jget spec' "root" = some root' ∧
        ComponentFrame root root') ∧
      (∃ comps comps', jget spec "components" = some (Json.obj comps) ∧
        jget spec' "components" = some (Json.obj comps') ∧
        List.Forall₂ (fun p q => p.1 = q.1 ∧ ComponentFrame p.2 q.2) comps comps')) := by
  constructor
  · intro b cfs hnone
    simp only [setComponentCaching, hnone]
  · intro spec b spec' h
    cases spec with
    | obj sfs =>
      simp only [_set_enable_caching_value] at h
      cases hr : dictGet sfs "root" with
      | none => rw [hr] at h; simp at h
      | some root =>
        rw [hr] at h
        cases hc : dictGet sfs "components" with
        | none => rw [hc] at h; simp at h
        | some cj =>
          rw [hc] at h
          cases cj with
          | obj comps =>
            dsimp only at h
            cases hrc : setComponentCaching b root with
            | none => rw [hrc] at h; simp at h
            | some root' =>
              rw [hrc] at h
              cases hmc : mapValuesM (setComponentCaching b) comps with
              | none => rw [hmc] at h; simp at h
              | some comps' =>
                rw [hmc] at h
                simp only [Option.some.injEq] at h
                subst h
                have hne : ("root" : String) ≠ "components" := by decide
                refine ⟨?_, ?_, ?_⟩
                · intro key hkr hkc
                  simp only [jget]
                  rw [dictGet_dictSet_ne _ _ _ _ hkc, dictGet_dictSet_ne _ _ _ _ hkr]
                · refine ⟨root, root', hr, ?_, setComponentCaching_frame b root root' hrc⟩
                  simp only [jget]
                  rw [dictGet_dictSet_ne _ _ _ _ hne]
                  exact dictGet_dictSet_self _ _ _
                · refine ⟨comps, comps', hc, ?_, ?_⟩
                  · simp only [jget]
                    exact dictGet_dictSet_self _ _ _
                  · exact mapValuesM_forall2 _ ComponentFrame
                      (setComponentCaching_frame b) comps comps' hmc
          | null => simp at h
          | bool x => simp at h
          | num x => simp at h
          | str x => simp at h
          | arr x => simp at h
    | null => simp [_set_enable_caching_value] at h
    | bool x => simp [_set_enable_caching_value] at h
    | num x => simp [_set_enable_caching_value] at h
    | str x => simp [_set_enable_caching_value] at h
    | arr x => simp [_set_enable_caching_value] at h

/-- Witness for claim C10 on the concrete example spec. -/
theorem claim_C10_witness :
    (setComponentCaching true (Json.obj [("executorLabel", Json.str "exec")]) =
      some (Json.obj [("executorLabel", Json.str "exec")])) ∧
    ∃ spec', _set_enable_caching_value examplePipelineSpec true = some spec' ∧
      (∀ key, key ≠ "root" → key ≠ "components" →
        jget spec' key = jget examplePipelineSpec key) ∧
      (∃ root root', jget examplePipelineSpec "root" = some root ∧
        jget spec' "root" = some root' ∧ ComponentFrame root root') ∧
      (∃ comps comps', jget examplePipelineSpec "components" = some (Json.obj comps) ∧
        jget spec' "components" = some (Json.obj comps') ∧
        List.Forall₂ (fun p q => p.1 = q.1 ∧ ComponentFrame p.2 q.2) comps comps') :=
  ⟨claim_C10_caching_frame.1 true [("executorLabel", Json.str "exec")] rfl,
   _, rfl, claim_C10_caching_frame.2 examplePipelineSpec true _ rfl⟩

theorem specSub_nil : specSub [] = [] := by
  rw [specSub.eq_def]

theorem specSub_cons_allowed (c : Char) (rest : List Char)
    (hc : isAllowedIdChar c = true) :
    specSub (c :: rest) =
      (c :: rest.takeWhile isAllowedIdChar) ++ specSub (rest.dropWhile isAllowedIdChar) := by
  rw [specSub.eq_def]
  simp [hc]

theorem specSub_cons_disallowed (c : Char) (rest : List Char)
    (hc : isAllowedIdChar c = false) :
    specSub (c :: rest) = '-' :: specSub (rest.dropWhile (fun d => ! isAllowedIdChar d)) := by
  rw [specSub.eq_def]
  simp [hc]

theorem specSub_split (s : List Char) :
    specSub s = s.takeWhile isAllowedIdChar ++ specSub (s.dropWhile isAllowedIdChar) := by
  cases s with
  | nil => simp [specSub_nil]
  | cons c rest =>
    by_cases hc : isAllowedIdChar c
    · rw [specSub_cons_allowed c rest hc]
      simp [List.takeWhile_cons, List.dropWhile_cons, hc]
    · have hc' : isAllowedIdChar c = false := by
        revert hc
        cases isAllowedIdChar c <;> simp
      simp [List.takeWhile_cons, List.dropWhile_cons, hc']

theorem collapseAux_eq_specSub (s : List Char) :
    collapseAux false s = specSub s ∧
    collapseAux true s = specSub (s.dropWhile (fun d => ! isAllowedIdChar d)) := by
  induction s with
  | nil => exact ⟨specSub_nil.symm, specSub_nil.symm⟩
  | cons c rest ih =>
    by_cases hc : isAllowedIdChar c
    · constructor
      · rw [specSub_cons_allowed c rest hc, List.cons_append, ← specSub_split rest]
        simp [collapseAux, hc, ih.1]
      · simp only [List.dropWhile_cons, hc]
        rw [if_neg (by simp [hc])]
        rw [specSub_cons_allowed c rest hc, List.cons_append, ← specSub_split rest]
        simp [collapseAux, hc, ih.1]
    · have hc' : isAllowedIdChar c = false := by
        revert hc
        cases isAllowedIdChar c <;> simp
      constructor
      · rw [specSub_cons_disallowed c rest hc']
        simp [collapseAux, hc', ih.2]
      · simp only [List.dropWhile_cons, hc']
        rw [if_pos (by simp [hc'])]
        simp [collapseAux, hc', ih.2]

/-- Claim C3: with no explicit job id, the identity is the pipeline name
lowercased, with every maximal run of characters outside the allowed class
replaced by one hyphen and hyphens trimmed from both ends, followed by a
hyphen and the timestamp rendered as YYYYMMDDHHMMSS; on the pipeline name
demo-flow at 2024-01-02T03:04:05 this yields demo-flow-20240102030405. -/
theorem claim_C3_job_id_derivation :
    (∀ (pipeline_name : String) (now : DateTime),
      assignJobId none pipeline_name now =
        String.mk (sanitizePipelineName pipeline_name.toList ++ '-' :: formatTimestamp now)) ∧
    (∀ s : List Char, pySubNonAllowed s = specSub s) ∧
    assignJobId none "demo-flow" (DateTime.mk 2024 1 2 3 4 5) =
      "demo-flow-20240102030405" := by
  refine ⟨fun _ _ => rfl, ?_, by decide⟩
  intro s
  exact (collapseAux_eq_specSub s).1

/-- Claim C4: every job identity, explicit or derived, on the constructor
path and on the clone path, is validated against the identity pattern before
a request payload exists; the explicit identity Bad_ID! and a pipeline name
that sanitizes to an empty prefix both fail with a local error. -/
theorem claim_C4_job_id_validation :
    (∀ (job_id : Option String) (pipeline_name : String) (now : DateTime) (id : String),
      assignAndValidateJobId job_id pipeline_name now = .ok id →
      matchesValidNamePattern id = true) ∧
    (∀ (job_id : Option String) (pipeline_name : String) (now : DateTime) (id : String),
      assignAndValidateCloneJobId job_id pipeline_name now = .ok id →
      matchesValidNamePattern id = true) ∧
    (∀ (pipeline_name : String) (now : DateTime), ∃ e,
      assignAndValidateJobId (some "Bad_ID!") pipeline_name now = .error e) ∧
    (∀ now : DateTime, ∃ e,
      assignAndValidateJobId none "###" now = .error e) := by
  refine ⟨?_, ?_, ?_, ?_⟩
  · intro job_id pipeline_name now id h
    simp only [assignAndValidateJobId] at h
    split at h
    · rename_i hm
      rw [Except.ok.injEq] at h
      subst h
      exact hm
    · exact absurd h (by simp)
  · intro job_id pipeline_name now id h
    simp only [assignAndValidateCloneJobId] at h
    split at h
    · rename_i hm
      rw [Except.ok.injEq] at h
      subst h
      exact hm
    · exact absurd h (by simp)
  · intro pipeline_name now
    exact ⟨_, rfl⟩
  · intro now
    have hm : matchesValidNamePattern (assignJobId none "###" now) = false := by
      show matchesValidNamePattern (String.mk ('-' :: formatTimestamp now)) = false
      have htl : (String.mk ('-' :: formatTimestamp now)).toList = '-' :: formatTimestamp now :=
        rfl
      unfold matchesValidNamePattern
      rw [htl]
      have h1 : isAsciiLowerAlpha '-' = false := by decide
      simp [h1]
    refine ⟨"Generated job ID: " ++ assignJobId none "###" now ++
      " is illegal as a Vertex pipelines job ID.", ?_⟩
    simp only [assignAndValidateJobId, hm]
    simp

/-- Witness for claim C4: the explicit valid identity my-job validates, and
the explicit identity Bad_ID! is rejected at a concrete time. -/
theorem claim_C4_witness :
    matchesValidNamePattern "my-job" = true ∧
    ∃ e, assignAndValidateJobId (some "Bad_ID!") "demo-flow" (DateTime.mk 2024 1 2 3 4 5) =
      .error e :=
  ⟨claim_C4_job_id_validation.1 (some "my-job") "demo-flow" (DateTime.mk 2024 1 2 3 4 5)
      "my-job" rfl,
   claim_C4_job_id_validation.2.2.1 "demo-flow" (DateTime.mk 2024 1 2 3 4 5)⟩

theorem build_rootBuildResult_single (d : Option String) :
    buildRuntimeConfigRoot d = rootBuildResult [d] := by
  cases d with
  | none => rfl
  | some s =>
    by_cases hs : s.isEmpty
    · simp [buildRuntimeConfigRoot, rootBuildResult, firstNonEmpty, pyTruthy, hs]
    · simp [buildRuntimeConfigRoot, rootBuildResult, firstNonEmpty, pyTruthy, hs]

theorem build_rootBuildResult_cons (a : Option String) (rest : List (Option String))
    (r : Option String) (h : buildRuntimeConfigRoot r = rootBuildResult rest) :
    buildRuntimeConfigRoot (pyOr a r) = rootBuildResult (a :: rest) := by
  by_cases ha : pyTruthy a
  · cases a with
    | none => simp [pyTruthy] at ha
    | some s =>
      simp only [pyTruthy] at ha
      have hs : s.isEmpty = false := by
        revert ha
        cases s.isEmpty <;> simp
      simp [pyOr, pyTruthy, hs, buildRuntimeConfigRoot, rootBuildResult, firstNonEmpty]
  · have ha' : pyTruthy a = false := by
      revert ha
      cases pyTruthy a <;> simp
    simp [pyOr, ha', rootBuildResult, firstNonEmpty, h]

theorem resolveRootFull_eq_chain (pipeline_root : Option String) (spec pipeline_json rc : Json)
    (config : GlobalConfig) (hrc : jget pipeline_json "runtimeConfig" = some rc) :
    resolveRootFull pipeline_root spec pipeline_json config =
      .ok (pyOr pipeline_root (pyOr (jgetStr spec "defaultPipelineRoot")
        (pyOr (jgetStr rc "gcsOutputDirectory") config.staging_bucket))) := by
  unfold resolveRootFull
  by_cases h1 : pyTruthy pipeline_root
  · simp [h1, pyOr]
  · by_cases h2 : pyTruthy (jgetStr spec "defaultPipelineRoot")
    · simp [h1, h2, pyOr]
    · simp [h1, h2, pyOr, hrc]

/-- Claim C7: the pipeline root resolves to the first non-empty value of, in
order, the explicit argument, the declared default root of the spec, the
previously set output directory (full job specs only), and the process-wide
staging bucket; when none is non-empty the build step fails with a
ConfigError. -/
theorem claim_C7_pipeline_root_resolution :
    (∀ (pipeline_root : Option String) (pipeline_json spec rc : Json) (config : GlobalConfig),
      jget pipeline_json "pipelineSpec" = some spec →
      spec.isNull = false →
      jget pipeline_json "runtimeConfig" = some rc →
      ∃ r, resolvePipelineRoot pipeline_root pipeline_json config = .ok r ∧
        buildRuntimeConfigRoot r =
          rootBuildResult [pipeline_root, jgetStr spec "defaultPipelineRoot",
            jgetStr rc "gcsOutputDirectory", config.staging_bucket]) ∧
    (∀ (pipeline_root : Option String) (pipeline_json : Json) (config : GlobalConfig),
      jget pipeline_json "pipelineSpec" = none →
      ∃ r, resolvePipelineRoot pipeline_root pipeline_json config = .ok r ∧
        buildRuntimeConfigRoot r =
          rootBuildResult [pipeline_root, jgetStr pipeline_json "defaultPipelineRoot",
            config.staging_bucket]) := by
  constructor
  · intro pipeline_root pipeline_json spec rc config hps hnull hrc
    refine ⟨pyOr pipeline_root (pyOr (jgetStr spec "defaultPipelineRoot")
      (pyOr (jgetStr rc "gcsOutputDirectory") config.staging_bucket)), ?_, ?_⟩
    · unfold resolvePipelineRoot
      rw [hps]
      dsimp only
      rw [hnull]
      simp only [Bool.false_eq_true, if_false]
      exact resolveRootFull_eq_chain pipeline_root spec pipeline_json rc config hrc
    · exact build_rootBuildResult_cons _ _ _
        (build_rootBuildResult_cons _ _ _
          (build_rootBuildResult_cons _ _ _
            (build_rootBuildResult_single _)))
  · intro pipeline_root pipeline_json config hps
    refine ⟨pyOr pipeline_root
      (pyOr (jgetStr pipeline_json "defaultPipelineRoot") config.staging_bucket), ?_, ?_⟩
    · unfold resolvePipelineRoot
      rw [hps]
      rfl
    · exact build_rootBuildResult_cons _ _ _
        (build_rootBuildResult_cons _ _ _
          (build_rootBuildResult_single _))


/-- Witness for claim C7 on a concrete full job spec whose runtime config
carries a previously set output directory. -/
theorem claim_C7_witness :
    ∃ r, resolvePipelineRoot none exampleFullPipelineJobJson
        (GlobalConfig.mk (some "gs://staging")) = .ok r ∧
      buildRuntimeConfigRoot r =
        rootBuildResult [none,
          jgetStr (Json.obj [("pipelineInfo", Json.obj [("name", Json.str "demo-flow")])])
            "defaultPipelineRoot",
          jgetStr (Json.obj [("gcsOutputDirectory", Json.str "gs://prev-output")])
            "gcsOutputDirectory",
          (GlobalConfig.mk (some "gs://staging")).staging_bucket] :=
  claim_C7_pipeline_root_resolution.1 none exampleFullPipelineJobJson
    (Json.obj [("pipelineInfo", Json.obj [("name", Json.str "demo-flow")])])
    (Json.obj [("gcsOutputDirectory", Json.str "gs://prev-output")])
    (GlobalConfig.mk (some "gs://staging")) rfl rfl rfl

theorem logSchedule_succ (k : Nat) :
    logSchedule (k + 1) = logSchedule k + min (5 * 2 ^ (k + 1)) 300 := rfl

theorem logSchedule_dvd (k : Nat) : 5 ∣ logSchedule k := by
  induction k with
  | zero => decide
  | succ k ih =>
    rw [logSchedule_succ]
    have h3 : (5 : Nat) ∣ min (5 * 2 ^ (k + 1)) 300 := by
      rcases Nat.le_total (5 * 2 ^ (k + 1)) 300 with h | h
      · rw [Nat.min_eq_left h]
        exact dvd_mul_right 5 _
      · rw [Nat.min_eq_right h]
        decide
    exact Nat.dvd_add ih h3

theorem blockLoopAux_schedule (states : Nat → PipelineState) (errors : Nat → String) :
    ∀ (fuel n prev logWait k : Nat) (tr : WaitTrace),
      prev + logWait = logSchedule k →
      logWait = min (5 * 2 ^ k) 300 →
      prev ≤ 5 * n →
      5 * n ≤ logSchedule k →
      blockLoopAux states errors fuel n prev logWait
        ((List.range n).map (fun i => 5 * i)) ((List.range k).map logSchedule) = some tr →
      tr.pollTimes = (List.range tr.pollTimes.length).map (fun i => 5 * i) ∧
      tr.logTimes = (List.range tr.logTimes.length).map logSchedule := by
  intro fuel
  induction fuel with
  | zero =>
    intro n prev logWait k tr _ _ _ _ h
    simp [blockLoopAux] at h
  | succ fuel ih =>
    intro n prev logWait k tr hsum hlw hprev hle h
    rw [blockLoopAux] at h
    by_cases hterm : states n ∈ _PIPELINE_COMPLETE_STATES
    · rw [if_pos hterm, Option.some.injEq] at h
      subst h
      constructor
      · dsimp only
        have hlen : ((List.range n).map (fun i => 5 * i) ++ [5 * n]).length = n + 1 := by
          simp
        rw [hlen, List.range_succ, List.map_append]
        simp
      · dsimp only
        have hlen : ((List.range k).map logSchedule).length = k := by simp
        rw [hlen]
    · rw [if_neg hterm] at h
      by_cases hlog : logWait ≤ 5 * n - prev
      · rw [if_pos hlog] at h
        have ht : 5 * n = logSchedule k := by omega
        have hpolls : (List.range n).map (fun i => 5 * i) ++ [5 * n] =
            (List.range (n + 1)).map (fun i => 5 * i) := by
          rw [List.range_succ, List.map_append]
          simp
        have hlogs : (List.range k).map logSchedule ++ [5 * n] =
            (List.range (k + 1)).map logSchedule := by
          rw [List.range_succ, List.map_append]
          simp [ht]
        rw [hpolls, hlogs] at h
        have h2 : 1 ≤ 2 ^ (k + 1) := Nat.one_le_two_pow
        have h5 : 5 * 1 ≤ 5 * 2 ^ (k + 1) := Nat.mul_le_mul_left 5 h2
        have hpow : 5 * 2 ^ (k + 1) = 5 * 2 ^ k * 2 := by ring
        have hLS : logSchedule (k + 1) = logSchedule k + min (5 * 2 ^ (k + 1)) 300 :=
          logSchedule_succ k
        have hsum' : 5 * n + min (logWait * 2) 300 = logSchedule (k + 1) := by
          rw [hLS, hlw]
          omega
        have hlw' : min (logWait * 2) 300 = min (5 * 2 ^ (k + 1)) 300 := by
          rw [hlw]
          omega
        have hprev' : 5 * n ≤ 5 * (n + 1) := by omega
        have hle' : 5 * (n + 1) ≤ logSchedule (k + 1) := by
          rw [hLS]
          omega
        exact ih (n + 1) (5 * n) (min (logWait * 2) 300) (k + 1) tr hsum' hlw' hprev' hle' h
      · rw [if_neg hlog] at h
        have hdvd : 5 ∣ logSchedule k := logSchedule_dvd k
        have hle' : 5 * (n + 1) ≤ logSchedule k := by
          obtain ⟨m, hm⟩ := hdvd
          omega
        have hpolls : (List.range n).map (fun i => 5 * i) ++ [5 * n] =
            (List.range (n + 1)).map (fun i => 5 * i) := by
          rw [List.range_succ, List.map_append]
          simp
        rw [hpolls] at h
        exact ih (n + 1) prev logWait k tr hsum hlw (by omega) hle' h

/-- Claim C1: under the simulated clock, whatever the sequence of remotely
observed states, the remote state is polled at a fixed five-second interval
(the n-th poll at simulated time `5 * n`), and the progress-log emissions
happen exactly along the schedule 5, 15, 35, 75, ... whose interval starts at
five seconds, doubles after each emission and is capped at 300 seconds —
never more often. -/
theorem claim_C1_wait_loop_timing :
    ∀ (states : Nat → PipelineState) (errors : Nat → String) (fuel : Nat) (tr : WaitTrace),
      _block_until_complete states errors fuel = some tr →
      tr.pollTimes = (List.range tr.pollTimes.length).map (fun i => 5 * i) ∧
      tr.logTimes = (List.range tr.logTimes.length).map logSchedule := by
  intro states errors fuel tr h
  exact blockLoopAux_schedule states errors fuel 0 0 5 0 tr (by decide) (by decide)
    (by omega) (by decide) h

/-- Witness for claim C1 on the spec scenario sequence pending, pending,
running, running, succeeded sampled every five simulated seconds: the loop
polls at 0, 5, 10, 15, 20 and logs exactly at 5 and 15. -/
theorem claim_C1_witness :
    ∃ tr, _block_until_complete exampleStates (fun _ => "boom") 10 = some tr ∧
      tr.pollTimes = (List.range tr.pollTimes.length).map (fun i => 5 * i) ∧
      tr.logTimes = (List.range tr.logTimes.length).map logSchedule :=
  ⟨_, rfl, claim_C1_wait_loop_timing exampleStates (fun _ => "boom") 10 _ rfl⟩

theorem blockLoopAux_exit (states : Nat → PipelineState) (errors : Nat → String) :
    ∀ (fuel n prev logWait : Nat) (polls logs : List Nat) (tr : WaitTrace),
      polls.length = n →
      (∀ m, m < n → states m ∉ _PIPELINE_COMPLETE_STATES) →
      blockLoopAux states errors fuel n prev logWait polls logs = some tr →
      ∃ j, n ≤ j ∧ tr.pollTimes.length = j + 1 ∧
        states j ∈ _PIPELINE_COMPLETE_STATES ∧
        (∀ m, m < j → states m ∉ _PIPELINE_COMPLETE_STATES) ∧
        tr.finalState = states j ∧
        tr.outcome = (if states j ∈ _PIPELINE_ERROR_STATES then WaitOutcome.raised (errors j)
          else WaitOutcome.completed) := by
  intro fuel
  induction fuel with
  | zero =>
    intro n prev lw polls logs tr _ _ h
    simp [blockLoopAux] at h
  | succ fuel ih =>
    intro n prev lw polls logs tr hlen hpre h
    rw [blockLoopAux] at h
    by_cases hterm : states n ∈ _PIPELINE_COMPLETE_STATES
    · rw [if_pos hterm, Option.some.injEq] at h
      subst h
      refine ⟨n, le_refl n, ?_, hterm, hpre, rfl, rfl⟩
      simp [hlen]
    · rw [if_neg hterm] at h
      have hpre' : ∀ m, m < n + 1 → states m ∉ _PIPELINE_COMPLETE_STATES := by
        intro m hm
        rcases Nat.lt_succ_iff_lt_or_eq.mp hm with hm' | hm'
        · exact hpre m hm'
        · subst hm'
          exact hterm
      by_cases hlog : lw ≤ 5 * n - prev
      · rw [if_pos hlog] at h
        obtain ⟨j, hj, rest⟩ := ih (n + 1) (5 * n) (min (lw * 2) 300) (polls ++ [5 * n])
          (logs ++ [5 * n]) tr (by simp [hlen]) hpre' h
        exact ⟨j, by omega, rest⟩
      · rw [if_neg hlog] at h
        obtain ⟨j, hj, rest⟩ := ih (n + 1) prev lw (polls ++ [5 * n]) logs tr
          (by simp [hlen]) hpre' h
        exact ⟨j, by omega, rest⟩

theorem blockLoopAux_total (states : Nat → PipelineState) (errors : Nat → String) :
    ∀ (fuel n prev lw : Nat) (polls logs : List Nat) (j : Nat),
      n ≤ j → j < n + fuel → states j ∈ _PIPELINE_COMPLETE_STATES →
      ∃ tr, blockLoopAux states errors fuel n prev lw polls logs = some tr := by
  intro fuel
  induction fuel with
  | zero =>
    intro n prev lw polls logs j h1 h2 _
    omega
  | succ fuel ih =>
    intro n prev lw polls logs j h1 h2 hj
    rw [blockLoopAux]
    by_cases hterm : states n ∈ _PIPELINE_COMPLETE_STATES
    · rw [if_pos hterm]
      exact ⟨_, rfl⟩
    · rw [if_neg hterm]
      have hne : n ≠ j := by
        intro hh
        subst hh
        exact hterm hj
      by_cases hlog : lw ≤ 5 * n - prev
      · rw [if_pos hlog]
        exact ih (n + 1) (5 * n) (min (lw * 2) 300) (polls ++ [5 * n]) (logs ++ [5 * n]) j
          (by omega) (by omega) hj
      · rw [if_neg hlog]
        exact ih (n + 1) prev lw (polls ++ [5 * n]) logs j (by omega) (by omega) hj

/-- Claim C2: the wait loop exits at the first poll whose observed state is in
the terminal set succeeded, failed, cancelled, paused (and such a poll makes
it exit); on exit it raises the error carrying the remote-reported payload
exactly when the final state is failed, and returns normally otherwise. -/
theorem claim_C2_terminal_exit_and_error :
    (∀ (states : Nat → PipelineState) (errors : Nat → String) (fuel : Nat) (tr : WaitTrace),
      _block_until_complete states errors fuel = some tr →
      ∃ j, tr.pollTimes.length = j + 1 ∧
        states j ∈ _PIPELINE_COMPLETE_STATES ∧
        (∀ m, m < j → states m ∉ _PIPELINE_COMPLETE_STATES) ∧
        tr.finalState = states j ∧
        (tr.finalState = PipelineState.failed → tr.outcome = WaitOutcome.raised (errors j)) ∧
        (tr.finalState ≠ PipelineState.failed → tr.outcome = WaitOutcome.completed)) ∧
    (∀ (states : Nat → PipelineState) (errors : Nat → String) (j : Nat),
      states j ∈ _PIPELINE_COMPLETE_STATES →
      ∃ tr, _block_until_complete states errors (j + 1) = some tr) := by
  constructor
  · intro states errors fuel tr h
    obtain ⟨j, _, hlen, hterm, hfirst, hfin, hout⟩ :=
      blockLoopAux_exit states errors fuel 0 0 5 [] [] tr rfl
        (fun m hm => absurd hm (by omega)) h
    refine ⟨j, hlen, hterm, hfirst, hfin, ?_, ?_⟩
    · intro hf
      have hmem : states j ∈ _PIPELINE_ERROR_STATES := by
        rw [hfin] at hf
        simp [_PIPELINE_ERROR_STATES, hf]
      rw [hout, if_pos hmem]
    · intro hf
      have hmem : states j ∉ _PIPELINE_ERROR_STATES := by
        rw [hfin] at hf
        simp [_PIPELINE_ERROR_STATES, hf]
      rw [hout, if_neg hmem]
  · intro states errors j hj
    exact blockLoopAux_total states errors (j + 1) 0 0 5 [] [] j (by omega) (by omega) hj

/-- Witness for claim C2 on a sequence that fails at the second poll with the
payload boom. -/
theorem claim_C2_witness :
    ∃ tr, _block_until_complete exampleFailingStates (fun _ => "boom") 10 = some tr ∧
      ∃ j, tr.pollTimes.length = j + 1 ∧
        exampleFailingStates j ∈ _PIPELINE_COMPLETE_STATES ∧
        (∀ m, m < j → exampleFailingStates m ∉ _PIPELINE_COMPLETE_STATES) ∧
        tr.finalState = exampleFailingStates j ∧
        (tr.finalState = PipelineState.failed → tr.outcome = WaitOutcome.raised "boom") ∧
        (tr.finalState ≠ PipelineState.failed → tr.outcome = WaitOutcome.completed) :=
  ⟨_, rfl, claim_C2_terminal_exit_and_error.1 exampleFailingStates (fun _ => "boom") 10 _ rfl⟩

theorem resolveClonedField_none (original : Option Json) :
    resolveClonedField none original = original := by
  cases original <;> rfl

theorem cloned_id_ne_derived (pipeline_name : String) (now t0 : DateTime)
    (hlen : (formatTimestamp t0).length = (formatTimestamp now).length) :
    deriveClonedPipelineJobId pipeline_name now ≠ derivePipelineJobId pipeline_name t0 := by
  intro heq
  unfold deriveClonedPipelineJobId derivePipelineJobId at heq
  have hdata := congrArg String.data heq
  simp only at hdata
  have hlens := congrArg List.length hdata
  have h7 : ("cloned-".toList).length = 7 := by decide
  simp only [List.length_append, List.length_cons, h7] at hlens
  omega

/-- Claim C8 (amended): cloning a job with no overrides yields a new
unsubmitted request whose pipeline spec equals the last-known request payload
with the deploymentConfig sub-section stripped, whose display name, labels and
encryption spec equal those of the original, and whose identity is freshly
derived as cloned- plus the sanitized pipeline name plus the timestamp; that
identity is distinct from the identity of the original whenever the original
identity was itself derived from the pipeline name and a same-length
timestamp. -/
theorem claim_C8_clone_no_overrides :
    ∀ (pipeline_job : Json) (sfs : List (String × Json)) (pinfo : Json)
      (pipeline_name : String) (ges : Option String → Json) (now : DateTime),
      jget pipeline_job "pipelineSpec" = some (Json.obj sfs) →
      dictGet sfs "pipelineInfo" = some pinfo →
      jget pinfo "name" = some (Json.str pipeline_name) →
      matchesValidNamePattern (deriveClonedPipelineJobId pipeline_name now) = true →
      ∃ req, clonePipelineJob pipeline_job none none none none none none none ges now =
          .ok req ∧
        req.job_id = deriveClonedPipelineJobId pipeline_name now ∧
        req.pipeline_spec = Json.obj (dictDelete sfs "deploymentConfig") ∧
        req.display_name = jget pipeline_job "displayName" ∧
        req.labels = jget pipeline_job "labels" ∧
        req.encryption_spec = (match jget pipeline_job "encryptionSpec" with
          | some enc => enc
          | none => ges none) ∧
        (∀ t0 : DateTime, (formatTimestamp t0).length = (formatTimestamp now).length →
          req.job_id ≠ derivePipelineJobId pipeline_name t0) := by
  intro pipeline_job sfs pinfo pipeline_name ges now hps hpi hname hvalid
  have hinfo : jget (jdeleteKey (Json.obj sfs) "deploymentConfig") "pipelineInfo" =
      some pinfo := by
    simp only [jdeleteKey, jget]
    rw [dictGet_dictDelete_ne _ _ _ (by decide)]
    exact hpi
  refine ⟨PipelineJobRequest.mk (deriveClonedPipelineJobId pipeline_name now)
      (jget pipeline_job "displayName")
      (Json.obj (dictDelete sfs "deploymentConfig"))
      (jget pipeline_job "labels")
      (buildCloneRuntimeConfig pipeline_job none none)
      (match jget pipeline_job "encryptionSpec" with
        | some enc => enc
        | none => ges none), ?_, rfl, rfl, rfl, rfl, rfl, ?_⟩
  · unfold clonePipelineJob
    rw [hps]
    dsimp only
    rw [show applyEnableCaching none (jdeleteKey (Json.obj sfs) "deploymentConfig") =
      some (jdeleteKey (Json.obj sfs) "deploymentConfig") from rfl]
    dsimp only
    rw [hinfo]
    dsimp only
    rw [hname]
    dsimp only
    rw [show assignCloneJobId none pipeline_name now =
      deriveClonedPipelineJobId pipeline_name now from rfl, hvalid]
    rw [if_pos rfl]
    have hdisp : resolveClonedField (Option.map Json.str none)
        (jget pipeline_job "displayName") = jget pipeline_job "displayName" :=
      resolveClonedField_none _
    have hlab : resolveClonedField none (jget pipeline_job "labels") =
        jget pipeline_job "labels" := resolveClonedField_none _
    rw [hdisp, hlab]
    cases henc : jget pipeline_job "encryptionSpec" with
    | none => rfl
    | some enc => simp [pyTruthy, jdeleteKey]
  · intro t0 hlen
    exact cloned_id_ne_derived pipeline_name now t0 hlen

/-- Witness for the amended claim C8 on a concrete original request payload
whose identity was derived at 2024-01-01T00:00:00, cloned at
2024-01-02T03:04:05. -/
theorem claim_C8_witness :
    ∃ req, clonePipelineJob exampleOriginalPipelineJob none none none none none none none
        (fun _ => Json.obj []) exampleCloneTime = .ok req ∧
      req.job_id = deriveClonedPipelineJobId "demo-flow" exampleCloneTime ∧
      req.pipeline_spec = Json.obj (dictDelete [
        ("pipelineInfo", Json.obj [("name", Json.str "demo-flow")]),
        ("root", Json.obj []),
        ("components", Json.obj []),
        ("deploymentConfig", Json.obj [("executor", Json.str "e")])] "deploymentConfig") ∧
      req.display_name = jget exampleOriginalPipelineJob "displayName" ∧
      req.labels = jget exampleOriginalPipelineJob "labels" ∧
      req.encryption_spec = (match jget exampleOriginalPipelineJob "encryptionSpec" with
        | some enc => enc
        | none => Json.obj []) ∧
      (∀ t0 : DateTime, (formatTimestamp t0).length =
          (formatTimestamp exampleCloneTime).length →
        req.job_id ≠ derivePipelineJobId "demo-flow" t0) :=
  claim_C8_clone_no_overrides exampleOriginalPipelineJob
    [("pipelineInfo", Json.obj [("name", Json.str "demo-flow")]),
     ("root", Json.obj []),
     ("components", Json.obj []),
     ("deploymentConfig", Json.obj [("executor", Json.str "e")])]
    (Json.obj [("name", Json.str "demo-flow")]) "demo-flow"
    (fun _ => Json.obj []) exampleCloneTime rfl rfl rfl (by decide)

/-- Counterexample to claim C8 as stated: the original job carries the
pattern-valid explicit identity cloned-demo-flow-20240102030405, and cloning
it with no overrides under a clock reading 2024-01-02T03:04:05 derives
exactly that same identity, so the freshly derived clone identity is not
always distinct from the identity of the original. -/
theorem claim_C8_counterexample :
    matchesValidNamePattern exampleExplicitJobId = true ∧
    ∃ req, clonePipelineJob exampleOriginalPipelineJob none none none none none none none
        (fun _ => Json.obj []) exampleCloneTime = .ok req ∧
      req.job_id = exampleExplicitJobId := by
  refine ⟨by decide, _, rfl, by decide⟩

/-- Claim C9 (evaluation of the code at the failing input): a job that
reached the terminal state succeeded without ever producing a pipeline-run
context makes `_get_context` raise the variant that carries the remote error
payload — the branch meant for failed jobs — and not the distinct
context-could-not-be-found error, because the guard tests the uncalled method
`_has_failed`, which is always truthy in Python. -/
theorem claim_C9_get_context_bug :
    _get_context exampleSucceededNoContext 1 =
      some (GetContextOutcome.errCannotAssociateFailed "") ∧
    _get_context exampleSucceededNoContext 1 ≠ some GetContextOutcome.errContextNotFound := by
  constructor
  · rfl
  · intro h
    exact GetContextOutcome.noConfusion (Option.some.inj h)
